import Mathlib

/-
Shallow embedding of the BizLawMap legal-research pipeline
(src/bizlaw_advisor: config.py, models.py, search_service.py,
llm_service.py, and their callers in frontend.py / main.py).
Python strings are modelled as `List Char`.
-/

/-! ## Python string helpers -/

/-- The backtick character (U+0060). -/
def btick : Char := Char.ofNat 96

/-- The left curly brace character. -/
def lbrace : Char := Char.ofNat 123

/-- The right curly brace character. -/
def rbrace : Char := Char.ofNat 125

/-- The single-quote character. -/
def squote : Char := Char.ofNat 39

/-- Whitespace characters stripped by Python `str.strip()` (ASCII subset;
non-ASCII space code points are not modelled). -/
def isPyWs (c : Char) : Bool :=
  c == ' ' || c == '\t' || c == '\n' || c == '\r' ||
  c == Char.ofNat 11 || c == Char.ofNat 12

/-- Python `s.strip()`. -/
def pyStrip (s : List Char) : List Char :=
  ((s.dropWhile isPyWs).reverse.dropWhile isPyWs).reverse

/-- Python `s.lower()` (ASCII case mapping; non-ASCII code points are left
unchanged, while Python would lower-case them too — the corner is not
exercised by any claim). -/
def pyLower (s : List Char) : List Char := s.map Char.toLower

/-- Index of the first occurrence of `pat` as a contiguous substring of `s`. -/
def findSubstrIdx (pat : List Char) : List Char → Option Nat
  | [] => if pat.isEmpty then some 0 else none
  | c :: rest =>
    if pat.isPrefixOf (c :: rest) then some 0
    else (findSubstrIdx pat rest).map (· + 1)

/-! ## Fence stripping (llm_service.py line 110 and line 163)

`re.sub(r"---json(.*?)---", r"\1", result, flags=re.DOTALL).strip()` where
`---` stands for three backticks: every leftmost-first non-overlapping match
of an opening backtick-backtick-backtick-json delimiter followed lazily by a
closing three-backtick delimiter is replaced by the lazily-matched group. -/

/-- The closing fence delimiter: three backticks. -/
def fenceClose : List Char := [btick, btick, btick]

/-- The opening fence delimiter: three backticks followed by `json`. -/
def fenceOpen : List Char := [btick, btick, btick, 'j', 's', 'o', 'n']

/-- One pass of the substitution: find the leftmost opening delimiter, the
first (lazy) closing delimiter after it, splice out the delimiters, and
continue after the match.  A leftmost opening delimiter with no closing
delimiter after it means no match anywhere (any later opening delimiter
begins with three backticks, which would have closed the earlier one).
Fuel decreases once per replaced match; `length + 1` always suffices. -/
def stripFenceAux : Nat → List Char → List Char
  | 0, s => s
  | fuel + 1, s =>
    match findSubstrIdx fenceOpen s with
    | none => s
    | some i =>
      let rest := s.drop (i + 7)
      match findSubstrIdx fenceClose rest with
      | none => s
      | some k => s.take i ++ rest.take k ++ stripFenceAux fuel (rest.drop (k + 3))

/-- The regex substitution of llm_service.py lines 110 and 163. -/
def stripJsonFence (s : List Char) : List Char := stripFenceAux (s.length + 1) s

/-- `cleaned_result`: the fence substitution followed by `.strip()`. -/
def cleanResult (s : List Char) : List Char := pyStrip (stripJsonFence s)

/-! ## JSON values and `json.loads` (the CPython `json` decoder) -/

/-- Decoded JSON value.  Numbers keep their source numeral text (CPython
turns them into int/float; the literal text determines the value and no claim
inspects numeric semantics).  The non-standard literals NaN, Infinity and
-Infinity, accepted by CPython, are kept as numeral text too.  Objects are
insertion-ordered key/value lists with last-wins overwrite on duplicate keys,
matching `dict(pairs)`. -/
inductive Json where
  | null
  | bool (b : Bool)
  | num (lit : List Char)
  | str (s : List Char)
  | arr (elems : List Json)
  | obj (members : List (List Char × Json))

/-- JSON whitespace as in the CPython json module. -/
def isJsonWs (c : Char) : Bool :=
  c == ' ' || c == '\t' || c == '\n' || c == '\r'

/-- Skip JSON whitespace. -/
def skipWs (s : List Char) : List Char := s.dropWhile isJsonWs

/-- Value of a hexadecimal digit. -/
def hexVal (c : Char) : Option Nat :=
  if '0' ≤ c ∧ c ≤ '9' then some (c.toNat - '0'.toNat)
  else if 'a' ≤ c ∧ c ≤ 'f' then some (c.toNat - 'a'.toNat + 10)
  else if 'A' ≤ c ∧ c ≤ 'F' then some (c.toNat - 'A'.toNat + 10)
  else none

/-- Four hex digits of a `\uXXXX` escape. -/
def parseHex4 : List Char → Option (Nat × List Char)
  | a :: b :: c :: d :: rest =>
    match hexVal a, hexVal b, hexVal c, hexVal d with
    | some x, some y, some z, some w => some (((x * 16 + y) * 16 + z) * 16 + w, rest)
    | _, _, _, _ => none
  | _ => none

/-- Char from a code point.  CPython strings may hold lone surrogates, which
`Char` cannot; those map to U+FFFD (a corner no claim exercises). -/
def charOfCode (n : Nat) : Char :=
  if 0xD800 ≤ n ∧ n ≤ 0xDFFF then Char.ofNat 0xFFFD else Char.ofNat n

/-- The string scanner (`py_scanstring`): input starts after the opening
quote; strict mode rejects unescaped control characters; surrogate pairs in
`\uXXXX` escapes are combined. -/
def parseStringAux : Nat → List Char → List Char → Except (List Char) (List Char × List Char)
  | 0, _, _ => Except.error "Unterminated string".toList
  | _ + 1, _, [] => Except.error "Unterminated string".toList
  | fuel + 1, acc, c :: rest =>
    if c = '"' then Except.ok (acc.reverse, rest)
    else if c = '\\' then
      match rest with
      | [] => Except.error "Unterminated string".toList
      | e :: rest2 =>
        if e = '"' then parseStringAux fuel ('"' :: acc) rest2
        else if e = '\\' then parseStringAux fuel ('\\' :: acc) rest2
        else if e = '/' then parseStringAux fuel ('/' :: acc) rest2
        else if e = 'b' then parseStringAux fuel (Char.ofNat 8 :: acc) rest2
        else if e = 'f' then parseStringAux fuel (Char.ofNat 12 :: acc) rest2
        else if e = 'n' then parseStringAux fuel ('\n' :: acc) rest2
        else if e = 'r' then parseStringAux fuel ('\r' :: acc) rest2
        else if e = 't' then parseStringAux fuel ('\t' :: acc) rest2
        else if e = 'u' then
          match parseHex4 rest2 with
          | none => Except.error "Invalid hex escape".toList
          | some (n, rest3) =>
            if 0xD800 ≤ n ∧ n ≤ 0xDBFF then
              match rest3 with
              | '\\' :: 'u' :: rest4 =>
                match parseHex4 rest4 with
                | some (m, rest5) =>
                  if 0xDC00 ≤ m ∧ m ≤ 0xDFFF then
                    parseStringAux fuel
                      (charOfCode (0x10000 + (n - 0xD800) * 0x400 + (m - 0xDC00)) :: acc) rest5
                  else parseStringAux fuel (charOfCode n :: acc) rest3
                | none => parseStringAux fuel (charOfCode n :: acc) rest3
              | _ => parseStringAux fuel (charOfCode n :: acc) rest3
            else parseStringAux fuel (charOfCode n :: acc) rest2
        else Except.error "Invalid escape".toList
    else if c.toNat < 0x20 then Except.error "Invalid control character".toList
    else parseStringAux fuel (c :: acc) rest

/-- The `NUMBER_RE` regex of the CPython json module:
`(-?(?:0|[1-9]\d*))(\.\d+)?([eE][-+]?\d+)?`; returns the matched literal and
the rest of the input, or none when the regex does not match at this point. -/
def matchNumber (s : List Char) : Option (List Char × List Char) :=
  let negSplit : List Char × List Char :=
    match s with
    | '-' :: t => (['-'], t)
    | _ => ([], s)
  let intSplit : Option (List Char × List Char) :=
    match negSplit.2 with
    | '0' :: t => some (['0'], t)
    | c :: t =>
      if c.isDigit then some (c :: t.takeWhile Char.isDigit, t.dropWhile Char.isDigit)
      else none
    | [] => none
  match intSplit with
  | none => none
  | some (ip, s2) =>
    let fracSplit : List Char × List Char :=
      match s2 with
      | '.' :: t =>
        let ds := t.takeWhile Char.isDigit
        if ds.isEmpty then ([], s2) else ('.' :: ds, t.dropWhile Char.isDigit)
      | _ => ([], s2)
    let s3 := fracSplit.2
    let expSplit : List Char × List Char :=
      match s3 with
      | e :: t =>
        if e = 'e' ∨ e = 'E' then
          match t with
          | sgn :: t2 =>
            if sgn = '+' ∨ sgn = '-' then
              let ds := t2.takeWhile Char.isDigit
              if ds.isEmpty then ([], s3) else (e :: sgn :: ds, t2.dropWhile Char.isDigit)
            else
              let ds := t.takeWhile Char.isDigit
              if ds.isEmpty then ([], s3) else (e :: ds, t.dropWhile Char.isDigit)
          | [] => ([], s3)
        else ([], s3)
      | [] => ([], s3)
    some (negSplit.1 ++ ip ++ fracSplit.1 ++ expSplit.1, expSplit.2)

/-- Insert a key/value pair as `dict(pairs)` does: a duplicate key keeps its
first position but takes the last value. -/
def insertKV (kvs : List (List Char × Json)) (k : List Char) (v : Json) :
    List (List Char × Json) :=
  match kvs with
  | [] => [(k, v)]
  | (k', v') :: rest => if k' = k then (k', v) :: rest else (k', v') :: insertKV rest k v

mutual

/-- `scan_once`: dispatch on the first character; whitespace must already have
been skipped by the caller (CPython raises Expecting value on whitespace). -/
def parseValue : Nat → List Char → Except (List Char) (Json × List Char)
  | 0, _ => Except.error "Recursion limit".toList
  | fuel + 1, s =>
    match s with
    | [] => Except.error "Expecting value".toList
    | c :: rest =>
      if c = '"' then
        match parseStringAux (rest.length + 1) [] rest with
        | Except.error m => Except.error m
        | Except.ok (cs, rest2) => Except.ok (Json.str cs, rest2)
      else if c = lbrace then parseObjFirst fuel (skipWs rest)
      else if c = '[' then parseArrFirst fuel (skipWs rest)
      else if c = 'n' ∧ rest.take 3 = ['u', 'l', 'l'] then
        Except.ok (Json.null, rest.drop 3)
      else if c = 't' ∧ rest.take 3 = ['r', 'u', 'e'] then
        Except.ok (Json.bool true, rest.drop 3)
      else if c = 'f' ∧ rest.take 4 = ['a', 'l', 's', 'e'] then
        Except.ok (Json.bool false, rest.drop 4)
      else
        match matchNumber (c :: rest) with
        | some (lit, rest2) => Except.ok (Json.num lit, rest2)
        | none =>
          if c = 'N' ∧ rest.take 2 = ['a', 'N'] then
            Except.ok (Json.num ['N', 'a', 'N'], rest.drop 2)
          else if c = 'I' ∧ rest.take 7 = "nfinity".toList then
            Except.ok (Json.num "Infinity".toList, rest.drop 7)
          else if c = '-' ∧ rest.take 8 = "Infinity".toList then
            Except.ok (Json.num "-Infinity".toList, rest.drop 8)
          else Except.error "Expecting value".toList

/-- `JSONObject` just after the opening brace (whitespace already skipped):
empty object or first member. -/
def parseObjFirst : Nat → List Char → Except (List Char) (Json × List Char)
  | 0, _ => Except.error "Recursion limit".toList
  | fuel + 1, s =>
    match s with
    | [] => Except.error "Expecting property name".toList
    | c :: rest =>
      if c = rbrace then Except.ok (Json.obj [], rest)
      else if c = '"' then parseObjMember fuel (c :: rest) []
      else Except.error "Expecting property name".toList

/-- One `key : value` member followed by `,` (next member) or the closing
brace. -/
def parseObjMember : Nat → List Char → List (List Char × Json) →
    Except (List Char) (Json × List Char)
  | 0, _, _ => Except.error "Recursion limit".toList
  | fuel + 1, s, acc =>
    match s with
    | '"' :: rest =>
      match parseStringAux (rest.length + 1) [] rest with
      | Except.error m => Except.error m
      | Except.ok (key, rest2) =>
        match skipWs rest2 with
        | ':' :: rest3 =>
          match parseValue fuel (skipWs rest3) with
          | Except.error m => Except.error m
          | Except.ok (v, rest4) =>
            match skipWs rest4 with
            | [] => Except.error "Expecting delimiter".toList
            | d :: rest5 =>
              if d = rbrace then Except.ok (Json.obj (insertKV acc key v), rest5)
              else if d = ',' then parseObjMember fuel (skipWs rest5) (insertKV acc key v)
              else Except.error "Expecting delimiter".toList
        | _ => Except.error "Expecting colon delimiter".toList
    | _ => Except.error "Expecting property name".toList

/-- `JSONArray` just after the opening bracket (whitespace already skipped):
empty array or first element. -/
def parseArrFirst : Nat → List Char → Except (List Char) (Json × List Char)
  | 0, _ => Except.error "Recursion limit".toList
  | fuel + 1, s =>
    match s with
    | [] => Except.error "Expecting value".toList
    | c :: rest =>
      if c = ']' then Except.ok (Json.arr [], rest)
      else parseArrElem fuel (c :: rest) []

/-- One array element followed by `,` (next element) or the closing bracket. -/
def parseArrElem : Nat → List Char → List Json → Except (List Char) (Json × List Char)
  | 0, _, _ => Except.error "Recursion limit".toList
  | fuel + 1, s, acc =>
    match parseValue fuel s with
    | Except.error m => Except.error m
    | Except.ok (v, rest) =>
      match skipWs rest with
      | [] => Except.error "Expecting delimiter".toList
      | d :: rest2 =>
        if d = ']' then Except.ok (Json.arr (acc ++ [v]), rest2)
        else if d = ',' then parseArrElem fuel (skipWs rest2) (acc ++ [v])
        else Except.error "Expecting delimiter".toList

end

/-- `json.JSONDecodeError`: the decoder failure, carrying the message and the
document handed to `json.loads` (the `pos` field is not modelled). -/
structure JsonDecodeError where
  msg : List Char
  doc : List Char
deriving DecidableEq

/-- `json.loads`: skip leading whitespace, scan one value, require only
whitespace to remain. -/
def parseJson (doc : List Char) : Except JsonDecodeError Json :=
  match parseValue (doc.length + 1) (skipWs doc) with
  | Except.error m => Except.error ⟨m, doc⟩
  | Except.ok (v, rest) =>
    if (skipWs rest).isEmpty then Except.ok v
    else Except.error ⟨"Extra data".toList, doc⟩

/-! ## SourceConfig (config.py) -/

namespace SourceConfig

/-- config.py lines 12-23: the fixed federal regulatory domains. -/
def FEDERAL_SOURCES : List (List Char) :=
  ["irs.gov", "osha.gov", "epa.gov", "dol.gov", "msha.gov",
   "eeoc.gov", "hhs.gov", "sba.gov", "ecfr.gov", "govinfo.gov"].map String.toList

/-- config.py line 25: the trusted-domain suffixes. -/
def DOMAIN_PRIORITY : List (List Char) := [".gov", ".org"].map String.toList

end SourceConfig

/-! ## urlparse netloc and the trusted-domain check (search_service.py) -/

/-- Characters a URL scheme may contain (`scheme_chars` of urllib.parse). -/
def isSchemeChar (c : Char) : Bool :=
  c.isAlphanum || c == '+' || c == '-' || c == '.'

/-- urllib's scheme validity test: first character an ASCII letter and all
characters in `scheme_chars`. -/
def validScheme : List Char → Bool
  | [] => false
  | c :: cs => c.isAlpha && (c :: cs).all isSchemeChar

/-- urllib removes tab, carriage return and newline from the URL before
parsing (`_UNSAFE_URL_BYTES_TO_REMOVE`). -/
def removeUnsafeBytes (u : List Char) : List Char :=
  u.filter (fun c => !(c == '\t' || c == '\r' || c == '\n'))

/-- Strip a valid `scheme:` prefix at the first colon, as urlsplit does. -/
def splitScheme (url : List Char) : List Char :=
  match url.findIdx? (fun c => c == ':') with
  | some i => if 0 < i ∧ validScheme (url.take i) then url.drop (i + 1) else url
  | none => url

/-- Characters ending the netloc in `_splitnetloc`. -/
def isNetlocStop (c : Char) : Bool := c == '/' || c == '?' || c == '#'

/-- `urlparse(url).netloc` (urllib.parse.urlsplit): remove tab/CR/LF, strip a
valid scheme at the first colon, and when the remainder starts with `//` take
the authority up to `/`, `?` or `#`.  A netloc holding `[` without `]` (or
vice versa) raises ValueError ("Invalid IPv6 URL"); a URL without `//` has an
empty netloc. -/
def urlparseNetloc (url : List Char) : Except Unit (List Char) :=
  let u := splitScheme (removeUnsafeBytes url)
  if u.take 2 = ['/', '/'] then
    let netloc := (u.drop 2).takeWhile (fun c => !isNetlocStop c)
    if (netloc.contains '[' && !netloc.contains ']') ||
       (netloc.contains ']' && !netloc.contains '[') then Except.error ()
    else Except.ok netloc
  else Except.ok []

/-- search_service.py lines 40-43: `is_official_source`.  The Except layer
carries the ValueError that urlparse raises on invalid IPv6 netlocs. -/
def is_official_source (url : List Char) : Except Unit Bool :=
  match urlparseNetloc url with
  | Except.error e => Except.error e
  | Except.ok netloc =>
    Except.ok (SourceConfig.DOMAIN_PRIORITY.any (fun ext => ext.isSuffixOf (pyLower netloc)))

/-- Follows the spec's words for C2 ("the URL's host, normalized to lower
case"): the authority with any userinfo and port removed, lower-cased —
urllib's `.hostname` on non-bracketed hosts.  This definition exists only to
compare the spec's wording with `is_official_source`, which uses the full
netloc instead. -/
def specHost (url : List Char) : Except Unit (List Char) :=
  match urlparseNetloc url with
  | Except.error e => Except.error e
  | Except.ok netloc =>
    let hostinfo := (netloc.reverse.takeWhile (fun c => !(c == '@'))).reverse
    Except.ok (pyLower (hostinfo.takeWhile (fun c => !(c == ':'))))

/-! ## Search service (search_service.py) -/

/-- One entry of the provider's `organic` result list.  A `none` field models
a malformed entry without that key: indexing it raises KeyError. -/
structure RawResult where
  link : Option (List Char)
  title : Option (List Char)
  snippet : Option (List Char)
deriving DecidableEq

/-- The provider payload.  `organic = none` models a payload without the
`organic` key, whose lookup raises KeyError. -/
structure SearchResponse where
  organic : Option (List RawResult)
deriving DecidableEq

/-- One field of the Python `str(result)` dict repr (absent keys omitted). -/
def reprField (name : List Char) (v : Option (List Char)) : List (List Char) :=
  match v with
  | none => []
  | some s => [[squote] ++ name ++ [squote, ':', ' ', squote] ++ s ++ [squote]]

/-- Python `str(result)`: a dict-repr snapshot of the raw provider entry
(keys in link/title/snippet order); only ever used as opaque prompt text. -/
def strRaw (r : RawResult) : List Char :=
  [lbrace] ++
    (List.intersperse ", ".toList
      (reprField "link".toList r.link ++ reprField "title".toList r.title ++
       reprField "snippet".toList r.snippet)).flatten ++ [rbrace]

/-- The source dict built by search_legal_sources lines 95-102 (the shape of
models.LegalSource).  `relevance_score` is the constant float 1.0, modelled
as the natural number 1. -/
structure LegalSource where
  url : List Char
  jurisdiction : List Char
  title : List Char
  description : List Char
  relevance_score : Nat
  content : List Char
deriving DecidableEq

/-- Python `jurisdiction or "Unknown"`: a falsy value (None or the empty
string) is replaced by the default. -/
def pyOrStr (o : Option (List Char)) (d : List Char) : List Char :=
  match o with
  | none => d
  | some s => if s.isEmpty then d else s

/-- Python truthiness of an optional string. -/
def pyTruthy (o : Option (List Char)) : Bool :=
  match o with
  | none => false
  | some s => !s.isEmpty

/-- search_service.py lines 74-81: the jurisdiction-scoped query string. -/
def buildSearchQuery (query : List Char) (jurisdiction state : Option (List Char)) :
    List Char :=
  if jurisdiction = some "Federal".toList then
    query ++ " site:(.gov)".toList
  else if jurisdiction = some "State".toList ∧ pyTruthy state then
    query ++ [' '] ++ state.getD [] ++ " state law site:(.gov)".toList
  else if jurisdiction = some "Local".toList ∧ pyTruthy state then
    query ++ " local law site:(.gov)".toList
  else query

/-- The result-processing loop of search_legal_sources (lines 87-103).  A
missing dict key (KeyError) or a ValueError escaping from urlparse raises
inside the try block; the surrounding `except` then returns the `sources`
accumulated so far, so the loop's value is the prefix built before the
failing entry.  A non-trusted link is skipped without touching the title or
snippet keys. -/
def collectSources (jurisdiction : Option (List Char)) : List RawResult → List LegalSource
  | [] => []
  | r :: rs =>
    match r.link with
    | none => []
    | some link =>
      match is_official_source link with
      | Except.error _ => []
      | Except.ok false => collectSources jurisdiction rs
      | Except.ok true =>
        match r.title, r.snippet with
        | some t, some sn =>
          { url := link, jurisdiction := pyOrStr jurisdiction "Unknown".toList,
            title := t, description := sn, relevance_score := 1,
            content := strRaw r } :: collectSources jurisdiction rs
        | _, _ => []

/-- search_service.py lines 70-108: `search_legal_sources`.  The provider
argument models `GoogleSerperAPIWrapper.results`; `Except.error` is a raised
provider exception and `organic = none` a payload without the `organic` key —
both are caught by the `except` clause, yielding the records accumulated so
far (the empty list when the call itself fails).  The second component logs
the provider queries issued: exactly one per invocation. -/
def search_legal_sources (provider : List Char → Except Unit SearchResponse)
    (query : List Char) (jurisdiction state : Option (List Char)) :
    List LegalSource × List (List Char) :=
  let search_query := buildSearchQuery query jurisdiction state
  let records :=
    match provider search_query with
    | Except.error _ => []
    | Except.ok resp =>
      match resp.organic with
      | none => []
      | some results => collectSources jurisdiction results
  (records, [search_query])

/-- search_service.py lines 110-122: `get_federal_laws` extends the
accumulated records with one scoped search per configured federal domain, in
list order.  The second component concatenates the per-call provider-query
logs. -/
def get_federal_laws (provider : List Char → Except Unit SearchResponse)
    (query : List Char) : List LegalSource × List (List Char) :=
  SourceConfig.FEDERAL_SOURCES.foldl
    (fun acc domain =>
      let res := search_legal_sources provider (query ++ " site:".toList ++ domain)
        (some "Federal".toList) none
      (acc.1 ++ res.1, acc.2 ++ res.2))
    ([], [])

/-- search_service.py lines 124-126: `get_state_laws`. -/
def get_state_laws (provider : List Char → Except Unit SearchResponse)
    (query : List Char) (state : Option (List Char)) :
    List LegalSource × List (List Char) :=
  search_legal_sources provider query (some "State".toList) state

/-- search_service.py lines 128-131: `get_local_laws`; the f-string renders a
None argument as the text `None`. -/
def get_local_laws (provider : List Char → Except Unit SearchResponse)
    (query : List Char) (city state : Option (List Char)) :
    List LegalSource × List (List Char) :=
  search_legal_sources provider
    (query ++ [' '] ++ city.getD "None".toList ++ [' '] ++ state.getD "None".toList)
    (some "Local".toList) state

/-! ## LLM service (llm_service.py) and data models (models.py) -/

/-- models.py lines 7-22: the BusinessContext dataclass fields (city, state,
business_type, area_of_law — and nothing else; in particular no
statute_of_law field).  Python does not enforce the `str` annotations at
runtime and determine_context would supply decoded-JSON values or None, so
the fields are modelled as `Option Json`. -/
structure BusinessContext where
  city : Option Json
  state : Option Json
  business_type : Option Json
  area_of_law : Option Json

/-- The Python exceptions the synthesis path can raise. -/
inductive PyError where
  | jsonDecode (e : JsonDecodeError)
  | keyError (k : List Char)
  | typeError
  | attributeError
deriving DecidableEq

/-- models.py lines 34-46: LegalResponse.  The dataclass annotations are
unenforced, so the five model-produced fields hold raw decoded JSON values;
`response_time` (wall-clock seconds) is not modelled. -/
structure LegalResponse where
  federal_laws : List LegalSource
  state_laws : List LegalSource
  local_laws : List LegalSource
  summary : Json
  key_points : Json
  jurisdiction_analysis : Json
  compliance_steps : Json
  overlapping_regulations : Json
  sources : List (List Char)

/-- llm_service.py lines 174-181: `_format_sources`. -/
def format_sources (sources : List LegalSource) : List Char :=
  sources.foldl
    (fun acc source =>
      acc ++ "\nSource: ".toList ++ source.url ++ ['\n']
          ++ "Title: ".toList ++ source.title ++ ['\n']
          ++ "Content Summary: ".toList ++ source.content ++ ['\n'])
    []

/-- Lookup in an insertion-ordered object member list. -/
def lookupKV (kvs : List (List Char × Json)) (k : List Char) : Option Json :=
  match kvs with
  | [] => none
  | (k', v) :: rest => if k' = k then some v else lookupKV rest k

/-- Python `parsed[k]` on a decoded JSON value: KeyError when the key is
absent, TypeError when the value is not a dict. -/
def pyGetItem (j : Json) (k : List Char) : Except PyError Json :=
  match j with
  | Json.obj kvs =>
    match lookupKV kvs k with
    | some v => Except.ok v
    | none => Except.error (PyError.keyError k)
  | _ => Except.error PyError.typeError

/-- llm_service.py lines 38-134: `generate_response`.  The
ChatPromptTemplate/LLMChain/Gemini step is the external generative-model
boundary: `llm` maps the business context and the three formatted source
blocks — exactly the data interpolated into the prompt template — to the raw
model output text.  The output is fence-stripped, `.strip()`ped and decoded
with `json.loads`; a decode failure propagates (there is no try around it),
as does a KeyError on a missing required key.  On success the five fields,
the three input lists and the concatenated source URLs are packed into a
LegalResponse. -/
def generate_response
    (llm : BusinessContext → List Char → List Char → List Char → List Char)
    (context : BusinessContext)
    (federal_laws state_laws local_laws : List LegalSource) :
    Except PyError LegalResponse :=
  let federal_text := format_sources federal_laws
  let state_text := format_sources state_laws
  let local_text := format_sources local_laws
  let result := llm context federal_text state_text local_text
  let cleaned_result := cleanResult result
  match parseJson cleaned_result with
  | Except.error e => Except.error (PyError.jsonDecode e)
  | Except.ok parsed_output =>
    let sources := (federal_laws ++ state_laws ++ local_laws).map (fun s => s.url)
    match pyGetItem parsed_output "summary".toList with
    | Except.error e => Except.error e
    | Except.ok summary =>
      match pyGetItem parsed_output "key_points".toList with
      | Except.error e => Except.error e
      | Except.ok key_points =>
        match pyGetItem parsed_output "jurisdiction_analysis".toList with
        | Except.error e => Except.error e
        | Except.ok jurisdiction_analysis =>
          match pyGetItem parsed_output "compliance_steps".toList with
          | Except.error e => Except.error e
          | Except.ok compliance_steps =>
            match pyGetItem parsed_output "overlapping_regulations".toList with
            | Except.error e => Except.error e
            | Except.ok overlapping_regulations =>
              Except.ok
                { federal_laws := federal_laws, state_laws := state_laws,
                  local_laws := local_laws, summary := summary,
                  key_points := key_points,
                  jurisdiction_analysis := jurisdiction_analysis,
                  compliance_steps := compliance_steps,
                  overlapping_regulations := overlapping_regulations,
                  sources := sources }

/-- The keyword-argument names determine_context passes to the
BusinessContext constructor (llm_service.py lines 166-172). -/
def determineContextKwargNames : List (List Char) :=
  ["city", "state", "business_type", "area_of_law", "statute_of_law"].map String.toList

/-- The field names of the models.py BusinessContext dataclass (lines 10-13). -/
def businessContextFields : List (List Char) :=
  ["city", "state", "business_type", "area_of_law"].map String.toList

/-- A Python dataclass `__init__` call succeeds iff every keyword matches a
declared field and every (default-free) field is supplied; otherwise it
raises TypeError. -/
def dataclassInitOk (fields kwargNames : List (List Char)) : Bool :=
  kwargNames.all (fun k => fields.contains k) && fields.all (fun f => kwargNames.contains f)

/-- `context_data.get(k, None)` on a decoded dict; a decoded JSON null is
Python None, indistinguishable from an absent key. -/
def pyDictGet (kvs : List (List Char × Json)) (k : List Char) : Option Json :=
  match lookupKV kvs k with
  | some Json.null => none
  | some v => some v
  | none => none

/-- The per-field `x if x != "None" else None` of llm_service.py 167-171. -/
def noneFilter (v : Option Json) : Option Json :=
  match v with
  | some (Json.str s) => if s = "None".toList then none else some (Json.str s)
  | w => w

/-- Lookup of a keyword argument's value. -/
def lookupKw (l : List (List Char × Option Json)) (k : List Char) : Option Json :=
  match l with
  | [] => none
  | (k', v) :: rest => if k' = k then v else lookupKw rest k

/-- llm_service.py lines 138-159: the context-extraction prompt (the doubled
braces of the f-string render as single braces; indentation reproduced
approximately — the text only feeds the abstract model). -/
def determineContextPrompt (user_input : List Char) : List Char :=
  "\nAnalyze the following user input and extract the business context:\n\nUser Input: \"".toList
  ++ user_input ++
  ("\"\n\nExtracted Information:\n- US City\n- US State\n- Business Type (e.g., Restaurant Owner, Landlord, Property Manager)\n- Area of Law (e.g., Employment, Taxation, Environmental)\n- Specific Statute of Law (if mentioned e.g., OSHA, EPA, IRS)\n\nProvide the extracted information in JSON format.\nResponse Format:\n\x7b\n    \"city\": \"US City Name or None\",\n    \"state\": \"US State Name or None\",\n    \"business_type\": \"Type of Business or None\",\n    \"area_of_law\": \"Area of Law or None\",\n    \"statute_of_law\": \"Specific Statute or None\"\n\x7d\n").toList

/-- llm_service.py lines 136-172: `determine_context`.  The model reply is
fence-stripped and decoded; the five extracted values (with the string
"None" collapsed to None) are passed as keyword arguments — including
`statute_of_law` — to the BusinessContext dataclass constructor, whose field
list has no statute_of_law, so the `__init__` call raises TypeError. -/
def determine_context (llm_predict : List Char → List Char) (user_input : List Char) :
    Except PyError BusinessContext :=
  let response := llm_predict (determineContextPrompt user_input)
  let cleaned_response := cleanResult response
  match parseJson cleaned_response with
  | Except.error e => Except.error (PyError.jsonDecode e)
  | Except.ok context_data =>
    match context_data with
    | Json.obj kvs =>
      let kwargs : List (List Char × Option Json) :=
        [("city".toList, noneFilter (pyDictGet kvs "city".toList)),
         ("state".toList, noneFilter (pyDictGet kvs "state".toList)),
         ("business_type".toList, noneFilter (pyDictGet kvs "business_type".toList)),
         ("area_of_law".toList, noneFilter (pyDictGet kvs "area_of_law".toList)),
         ("statute_of_law".toList, noneFilter (pyDictGet kvs "statute_of_law".toList))]
      if dataclassInitOk businessContextFields determineContextKwargNames then
        Except.ok
          { city := lookupKw kwargs "city".toList,
            state := lookupKw kwargs "state".toList,
            business_type := lookupKw kwargs "business_type".toList,
            area_of_law := lookupKw kwargs "area_of_law".toList }
      else Except.error PyError.typeError
    | _ => Except.error PyError.attributeError

/-! ## Helper lemmas -/

/-- The provider-query trace of one search call is the single scoped query. -/
theorem search_legal_sources_trace (provider : List Char → Except Unit SearchResponse)
    (query : List Char) (jurisdiction state : Option (List Char)) :
    (search_legal_sources provider query jurisdiction state).2
      = [buildSearchQuery query jurisdiction state] := rfl

/-- Unfolded form of the get_federal_laws fold: records are the flattened
per-domain results and the trace is one scoped query per domain, in order. -/
theorem get_federal_laws_foldl (provider : List Char → Except Unit SearchResponse)
    (query : List Char) (l : List (List Char)) (acc : List LegalSource × List (List Char)) :
    l.foldl
      (fun acc domain =>
        let res := search_legal_sources provider (query ++ " site:".toList ++ domain)
          (some "Federal".toList) none
        (acc.1 ++ res.1, acc.2 ++ res.2)) acc
    = (acc.1 ++ (l.map (fun d => (search_legal_sources provider (query ++ " site:".toList ++ d)
          (some "Federal".toList) none).1)).flatten,
       acc.2 ++ l.map (fun d => buildSearchQuery (query ++ " site:".toList ++ d)
          (some "Federal".toList) none)) := by
  induction l generalizing acc with
  | nil => simp
  | cons d ds ih =>
    rw [List.foldl_cons, ih]
    simp [List.append_assoc, search_legal_sources_trace]

/-- A list flattened over a map equals the flatten over the sub-list kept by
a filter, when the function sends every dropped element to the empty list. -/
theorem flatten_map_filter {α β : Type} (p : α → Bool) (f : α → List β) (l : List α)
    (h : ∀ a, p a = false → f a = []) :
    (l.map f).flatten = ((l.filter p).map f).flatten := by
  induction l with
  | nil => rfl
  | cons a as ih =>
    cases hpa : p a with
    | false => simp [List.filter_cons, hpa, ih, h a hpa]
    | true => simp [List.filter_cons, hpa, ih]

/-- Claim C5: for every query, get_federal_laws issues exactly one scoped
provider call per entry of SourceConfig.FEDERAL_SOURCES (10 calls), one per
domain, in domain-list order, and returns the concatenation of the
per-domain record lists in that same order. -/
theorem federal_fanout_one_call_per_domain
    (provider : List Char → Except Unit SearchResponse) (query : List Char) :
    (get_federal_laws provider query).2
      = SourceConfig.FEDERAL_SOURCES.map
          (fun d => buildSearchQuery (query ++ " site:".toList ++ d) (some "Federal".toList) none)
    ∧ (get_federal_laws provider query).2.length = SourceConfig.FEDERAL_SOURCES.length
    ∧ SourceConfig.FEDERAL_SOURCES.length = 10
    ∧ (get_federal_laws provider query).1
      = (SourceConfig.FEDERAL_SOURCES.map
          (fun d => (search_legal_sources provider (query ++ " site:".toList ++ d)
            (some "Federal".toList) none).1)).flatten := by
  unfold get_federal_laws
  rw [get_federal_laws_foldl]
  refine ⟨by simp, by simp, by decide, by simp⟩

/-- A provider call fails when it raises or when its payload has no
`organic` key — the failure modes recovered by search_legal_sources. -/
def callFails (provider : List Char → Except Unit SearchResponse) (q : List Char) : Bool :=
  match provider q with
  | Except.error _ => true
  | Except.ok resp => resp.organic.isNone

/-- Claim C3: a provider-call failure (raised call or payload without the
organic key) for a scoped query is caught locally, yielding an empty record
list for that query, and a Federal aggregation in which some per-domain
queries fail still returns exactly the concatenated records of the
non-failing domains. -/
theorem provider_failure_recovered_locally :
    (∀ (provider : List Char → Except Unit SearchResponse) query jurisdiction state,
        callFails provider (buildSearchQuery query jurisdiction state) = true →
        (search_legal_sources provider query jurisdiction state).1 = [])
    ∧ (∀ (provider : List Char → Except Unit SearchResponse) query,
        (get_federal_laws provider query).1
          = ((SourceConfig.FEDERAL_SOURCES.filter
                (fun d => !callFails provider
                  (buildSearchQuery (query ++ " site:".toList ++ d) (some "Federal".toList) none))).map
              (fun d => (search_legal_sources provider (query ++ " site:".toList ++ d)
                (some "Federal".toList) none).1)).flatten) := by
  have hfail : ∀ (provider : List Char → Except Unit SearchResponse) query jurisdiction state,
      callFails provider (buildSearchQuery query jurisdiction state) = true →
      (search_legal_sources provider query jurisdiction state).1 = [] := by
    intro provider query jurisdiction state h
    unfold search_legal_sources
    unfold callFails at h
    cases hp : provider (buildSearchQuery query jurisdiction state) with
    | error e => simp [hp]
    | ok resp =>
      rw [hp] at h
      cases ho : resp.organic with
      | none => simp [hp, ho]
      | some results => simp [ho] at h
  refine ⟨hfail, ?_⟩
  intro provider query
  unfold get_federal_laws
  rw [get_federal_laws_foldl]
  simp only [List.nil_append]
  refine flatten_map_filter _ _ _ ?_
  intro d hd
  simp only [Bool.not_eq_false'] at hd
  exact hfail provider (query ++ " site:".toList ++ d) (some "Federal".toList) none hd

/-- A provider whose every call raises. -/
def failingProvider : List Char → Except Unit SearchResponse := fun _ => Except.error ()

/-- Witness for C3: a failing provider call yields the empty record list. -/
theorem provider_failure_recovered_locally_witness :
    (search_legal_sources failingProvider "minimum wage".toList (some "Federal".toList) none).1 = [] :=
  provider_failure_recovered_locally.1 failingProvider "minimum wage".toList
    (some "Federal".toList) none rfl

/-- Claim C7: a State- or Local-jurisdiction search invoked with the state
parameter absent (None or the empty string) does not crash: the provider
query is issued unscoped (no jurisdiction clause appended) and the record
list is produced by the normal result-processing path. -/
theorem state_absent_query_unscoped
    (provider : List Char → Except Unit SearchResponse) (query : List Char)
    (jurisdiction : Option (List Char))
    (hj : jurisdiction = some "State".toList ∨ jurisdiction = some "Local".toList)
    (state : Option (List Char)) (hs : state = none ∨ state = some []) :
    buildSearchQuery query jurisdiction state = query
    ∧ (search_legal_sources provider query jurisdiction state).2 = [query]
    ∧ (search_legal_sources provider query jurisdiction state).1
        = (match provider query with
           | Except.error _ => []
           | Except.ok resp =>
             match resp.organic with
             | none => []
             | some results => collectSources jurisdiction results) := by
  have htr : pyTruthy state = false := by rcases hs with rfl | rfl <;> rfl
  have hq : buildSearchQuery query jurisdiction state = query := by
    rcases hj with rfl | rfl <;> simp [buildSearchQuery, htr]
  refine ⟨hq, ?_, ?_⟩
  · rw [search_legal_sources_trace, hq]
  · unfold search_legal_sources
    rw [hq]

/-- Witness for C7: with jurisdiction State and state None the scoped query
is the raw query. -/
theorem state_absent_query_unscoped_witness :
    buildSearchQuery "zoning permits".toList (some "State".toList) none = "zoning permits".toList :=
  (state_absent_query_unscoped failingProvider "zoning permits".toList
    (some "State".toList) (Or.inl rfl) none (Or.inl rfl)).1

/-! ## Claim C10: prefix preservation on a mid-loop entry failure -/

/-- An organic entry that the processing loop handles without raising:
its link key is present, urlparse does not raise on it, and — when the link
is trusted — the title and snippet keys are present too. -/
def entryOk (r : RawResult) : Bool :=
  match r.link with
  | none => false
  | some l =>
    match is_official_source l with
    | Except.error _ => false
    | Except.ok true => r.title.isSome && r.snippet.isSome
    | Except.ok false => true

/-- An organic entry whose link is present and from a trusted domain. -/
def trustedEntry (r : RawResult) : Bool :=
  match r.link with
  | none => false
  | some l =>
    match is_official_source l with
    | Except.ok true => true
    | _ => false

/-- The record the loop appends for a kept entry (fields defaulted to the
empty string are never used: a kept entry has all keys present). -/
def mkSource (jurisdiction : Option (List Char)) (r : RawResult) : LegalSource :=
  { url := r.link.getD [], jurisdiction := pyOrStr jurisdiction "Unknown".toList,
    title := r.title.getD [], description := r.snippet.getD [],
    relevance_score := 1, content := strRaw r }

/-- Processing a result list whose prefix is failure-free and whose next
entry raises yields exactly the trusted records of the prefix. -/
theorem collectSources_prefix (jurisdiction : Option (List Char))
    (bad : RawResult) (rest : List RawResult) (hbad : entryOk bad = false) :
    ∀ pre : List RawResult, (∀ r ∈ pre, entryOk r = true) →
      collectSources jurisdiction (pre ++ bad :: rest)
        = (pre.filter trustedEntry).map (mkSource jurisdiction) := by
  intro pre
  induction pre with
  | nil =>
    intro _
    simp only [List.nil_append, List.filter_nil, List.map_nil]
    cases hl : bad.link with
    | none => simp [collectSources, hl]
    | some l =>
      cases hoff : is_official_source l with
      | error e => simp [collectSources, hl, hoff]
      | ok b =>
        cases b with
        | false => simp [entryOk, hl, hoff] at hbad
        | true =>
          cases ht : bad.title with
          | none => simp [collectSources, hl, hoff, ht]
          | some t =>
            cases hs : bad.snippet with
            | none => simp [collectSources, hl, hoff, ht, hs]
            | some sn => simp [entryOk, hl, hoff, ht, hs] at hbad
  | cons r pre ih =>
    intro hpre
    have hr : entryOk r = true := hpre r (List.mem_cons_self r pre)
    have hrest : ∀ x ∈ pre, entryOk x = true := fun x hx => hpre x (List.mem_cons_of_mem r hx)
    simp only [List.cons_append]
    cases hl : r.link with
    | none => simp [entryOk, hl] at hr
    | some l =>
      cases hoff : is_official_source l with
      | error e => simp [entryOk, hl, hoff] at hr
      | ok b =>
        cases b with
        | false =>
          have htr : trustedEntry r = false := by simp [trustedEntry, hl, hoff]
          have hcol : collectSources jurisdiction (r :: (pre ++ bad :: rest))
              = collectSources jurisdiction (pre ++ bad :: rest) := by
            simp [collectSources, hl, hoff]
          rw [hcol, ih hrest]
          simp [List.filter_cons, htr]
        | true =>
          cases ht : r.title with
          | none => simp [entryOk, hl, hoff, ht] at hr
          | some t =>
            cases hs : r.snippet with
            | none => simp [entryOk, hl, hoff, ht, hs] at hr
            | some sn =>
              have htr : trustedEntry r = true := by simp [trustedEntry, hl, hoff]
              have hcol : collectSources jurisdiction (r :: (pre ++ bad :: rest))
                  = mkSource jurisdiction r :: collectSources jurisdiction (pre ++ bad :: rest) := by
                simp [collectSources, mkSource, hl, hoff, ht, hs]
              rw [hcol, ih hrest]
              simp [List.filter_cons, htr]

/-- Claim C10: when iterating the provider's organic results raises partway
(an entry missing the link, title or snippet key, or a link urlparse rejects),
search_legal_sources returns exactly the records accumulated before the
failing entry — the trusted records of the processed prefix — unchanged,
rather than an empty list. -/
theorem entry_failure_returns_prefix
    (provider : List Char → Except Unit SearchResponse)
    (query : List Char) (jurisdiction state : Option (List Char))
    (pre : List RawResult) (bad : RawResult) (rest : List RawResult)
    (hp : provider (buildSearchQuery query jurisdiction state)
            = Except.ok ⟨some (pre ++ bad :: rest)⟩)
    (hpre : ∀ r ∈ pre, entryOk r = true)
    (hbad : entryOk bad = false) :
    (search_legal_sources provider query jurisdiction state).1
      = (pre.filter trustedEntry).map (mkSource jurisdiction) := by
  unfold search_legal_sources
  simp only [hp]
  exact collectSources_prefix jurisdiction bad rest hbad pre hpre

/-- A processable trusted entry. -/
def c10good : RawResult :=
  { link := some "https://osha.gov/rules".toList,
    title := some "Rules".toList, snippet := some "Safety rules".toList }

/-- A malformed entry: trusted link but no snippet key. -/
def c10bad : RawResult :=
  { link := some "https://epa.gov/x".toList, title := some "X".toList, snippet := none }

/-- A provider returning one good entry, then a malformed one, then more. -/
def c10provider : List Char → Except Unit SearchResponse :=
  fun _ => Except.ok ⟨some [c10good, c10bad, c10good]⟩

/-- Witness for C10: the good first record survives the malformed second. -/
theorem entry_failure_returns_prefix_witness :
    (search_legal_sources c10provider "waste disposal".toList (some "Federal".toList) none).1
      = ([c10good].filter trustedEntry).map (mkSource (some "Federal".toList)) :=
  entry_failure_returns_prefix c10provider "waste disposal".toList
    (some "Federal".toList) none [c10good] c10bad [c10good] rfl
    (by intro r hr; simp only [List.mem_singleton] at hr; subst hr; decide)
    (by decide)

/-! ## Claim C1: source URLs concatenated in Federal-State-Local order -/

/-- Claim C1: for all three jurisdiction record lists fed to
generate_response, a returned analysis's sources field is the URLs of the
federal list, then of the state list, then of the local list, concatenated in
that order with no deduplication and no reordering. -/
theorem sources_concatenated_in_order
    (llm : BusinessContext → List Char → List Char → List Char → List Char)
    (context : BusinessContext)
    (F S L : List LegalSource) (resp : LegalResponse)
    (h : generate_response llm context F S L = Except.ok resp) :
    resp.sources
      = F.map (fun s => s.url) ++ S.map (fun s => s.url) ++ L.map (fun s => s.url) := by
  simp only [generate_response] at h
  repeat' split at h
  all_goals try exact Except.noConfusion h
  injection h with h'
  subst h'
  simp [List.map_append]

/-- A model output carrying the five required keys as a bare JSON object. -/
def c1llmOut : List Char :=
  "\x7b\"summary\": \"s\", \"key_points\": [], \"jurisdiction_analysis\": \x7b\x7d, \"compliance_steps\": [], \"overlapping_regulations\": []\x7d".toList

/-- A generative model always answering `c1llmOut`. -/
def c1llm : BusinessContext → List Char → List Char → List Char → List Char :=
  fun _ _ _ _ => c1llmOut

/-- An all-empty business context. -/
def emptyCtx : BusinessContext := ⟨none, none, none, none⟩

/-- A concrete federal record. -/
def c1fed : LegalSource :=
  { url := "https://irs.gov/a".toList, jurisdiction := "Federal".toList,
    title := "t1".toList, description := "d1".toList, relevance_score := 1,
    content := "c1".toList }

/-- A concrete state record. -/
def c1state : LegalSource :=
  { url := "https://mo.gov/b".toList, jurisdiction := "State".toList,
    title := "t2".toList, description := "d2".toList, relevance_score := 1,
    content := "c2".toList }

/-- The analysis generate_response produces for the witness inputs. -/
def c1resp : LegalResponse :=
  { federal_laws := [c1fed], state_laws := [c1state], local_laws := [],
    summary := Json.str ['s'], key_points := Json.arr [],
    jurisdiction_analysis := Json.obj [], compliance_steps := Json.arr [],
    overlapping_regulations := Json.arr [],
    sources := ["https://irs.gov/a".toList, "https://mo.gov/b".toList] }

set_option maxRecDepth 100000 in
/-- Witness for C1: at a concrete model output and record lists the
synthesis succeeds and the sources field is the concatenated URL lists. -/
theorem sources_concatenated_in_order_witness :
    generate_response c1llm emptyCtx [c1fed] [c1state] [] = Except.ok c1resp
    ∧ c1resp.sources
        = [c1fed].map (fun s => s.url) ++ [c1state].map (fun s => s.url)
          ++ ([] : List LegalSource).map (fun s => s.url) :=
  ⟨rfl, sources_concatenated_in_order c1llm emptyCtx [c1fed] [c1state] [] c1resp rfl⟩

/-! ## Claim C2: the trusted-domain check -/

/-- Claim C2 (amended): for a URL whose netloc urlparse accepts, the check
returns true iff the lower-cased netloc — the full authority, port included —
ends with one of the configured suffixes `.gov` or `.org`; the spec's
examples hold, and neither a path component nor an interior occurrence as in
`evil-gov.com` matches. -/
theorem trusted_domain_netloc_suffix
    (url netloc : List Char) (h : urlparseNetloc url = Except.ok netloc) :
    (is_official_source url = Except.ok true ↔
      (".gov".toList.isSuffixOf (pyLower netloc) = true
        ∨ ".org".toList.isSuffixOf (pyLower netloc) = true))
    ∧ is_official_source "https://irs.gov/page".toList = Except.ok true
    ∧ is_official_source "https://example.com".toList = Except.ok false
    ∧ is_official_source "https://notgov.example/gov".toList = Except.ok false
    ∧ is_official_source "https://evil-gov.com/page".toList = Except.ok false := by
  refine ⟨?_, rfl, rfl, rfl, rfl⟩
  unfold is_official_source
  rw [h]
  simp [SourceConfig.DOMAIN_PRIORITY]

/-- Witness for C2: the characterization applied to a concrete URL. -/
theorem trusted_domain_netloc_suffix_witness :
    is_official_source "https://usda.gov/farm".toList = Except.ok true :=
  (trusted_domain_netloc_suffix "https://usda.gov/farm".toList "usda.gov".toList rfl).1.mpr
    (Or.inl (by decide))

/-- Counterexample for C2 as stated: for a URL with an explicit port the
host (per the spec's words, modelled by specHost) ends with `.gov`, yet
is_official_source returns false, because the code suffix-matches the full
netloc `irs.gov:443` — so "true iff the host ends with a configured suffix"
fails in the if direction. -/
theorem trusted_domain_host_port_counterexample :
    specHost "https://irs.gov:443/page".toList = Except.ok "irs.gov".toList
    ∧ ".gov".toList.isSuffixOf (pyLower "irs.gov".toList) = true
    ∧ is_official_source "https://irs.gov:443/page".toList = Except.ok false :=
  ⟨rfl, by decide, rfl⟩

/-! ## Claim C8: BusinessContext construction with statute_of_law -/

/-- A model reply with all five context keys, statute included. -/
def c8out : List Char :=
  "\x7b\"city\": \"Austin\", \"state\": \"Texas\", \"business_type\": \"Restaurant\", \"area_of_law\": \"Taxation\", \"statute_of_law\": \"IRS\"\x7d".toList

/-- A context-extraction model always answering `c8out`. -/
def c8llm : List Char → List Char := fun _ => c8out

set_option maxRecDepth 100000 in
/-- Claim C8 (showing the code bug): determine_context never returns a
BusinessContext — every run fails, with TypeError whenever the model reply
decodes to a dict, because the constructor call passes the keyword
statute_of_law, which the models.py BusinessContext dataclass does not
declare; in particular it fails on a fully well-formed model reply. -/
theorem determine_context_always_raises :
    (∀ (llm_predict : List Char → List Char) (user_input : List Char),
        ∃ e, determine_context llm_predict user_input = Except.error e)
    ∧ determine_context c8llm "I run a restaurant in Austin, Texas".toList
        = Except.error PyError.typeError
    ∧ determineContextKwargNames.contains "statute_of_law".toList = true
    ∧ businessContextFields.contains "statute_of_law".toList = false := by
  have hdc : dataclassInitOk businessContextFields determineContextKwargNames = false := by
    decide
  refine ⟨?_, rfl, by decide, by decide⟩
  intro llm ui
  cases hp : parseJson (cleanResult (llm (determineContextPrompt ui))) with
  | error e => exact ⟨PyError.jsonDecode e, by simp [determine_context, hp]⟩
  | ok cd =>
    cases cd with
    | obj kvs => exact ⟨PyError.typeError, by simp [determine_context, hp, hdc]⟩
    | null => exact ⟨PyError.attributeError, by simp [determine_context, hp]⟩
    | bool b => exact ⟨PyError.attributeError, by simp [determine_context, hp]⟩
    | num lit => exact ⟨PyError.attributeError, by simp [determine_context, hp]⟩
    | str s => exact ⟨PyError.attributeError, by simp [determine_context, hp]⟩
    | arr elems => exact ⟨PyError.attributeError, by simp [determine_context, hp]⟩

/-! ## Claim C4: decode failure propagation -/

/-- A json.loads failure carries the document it was decoding. -/
theorem parseJson_error_doc (doc : List Char) (e : JsonDecodeError)
    (h : parseJson doc = Except.error e) : e.doc = doc := by
  unfold parseJson at h
  split at h
  · injection h with h'; rw [← h']
  · split at h
    · exact Except.noConfusion h
    · injection h with h'; rw [← h']

/-- Claim C4 (amended): when the cleaned model output still fails to decode,
generate_response fails with the decode error — unrecovered, propagating to
the caller, with no partial LegalResponse — and that error carries the
cleaned text (Python's JSONDecodeError.doc); the raw text is carried only
when it coincides with the cleaned text. -/
theorem parse_failure_propagates
    (llm : BusinessContext → List Char → List Char → List Char → List Char)
    (context : BusinessContext) (F S L : List LegalSource) (e : JsonDecodeError)
    (h : parseJson (cleanResult
          (llm context (format_sources F) (format_sources S) (format_sources L)))
        = Except.error e) :
    generate_response llm context F S L = Except.error (PyError.jsonDecode e)
    ∧ e.doc = cleanResult
        (llm context (format_sources F) (format_sources S) (format_sources L)) := by
  refine ⟨?_, parseJson_error_doc _ e h⟩
  simp only [generate_response, h]

/-- A fenced model output that is not JSON: raw text differs from cleaned. -/
def c4raw : List Char := fenceOpen ++ " not json ".toList ++ fenceClose

/-- A generative model always answering `c4raw`. -/
def c4llm : BusinessContext → List Char → List Char → List Char → List Char :=
  fun _ _ _ _ => c4raw

/-- Counterexample for C4 as stated: the parse error the synthesis fails
with carries only the cleaned text (`doc` is the strip-cleaned `not json`),
and that text differs from the raw model output, so the error does not carry
the raw text — "carrying both the raw and the cleaned text" fails. -/
theorem parse_error_raw_text_counterexample :
    generate_response c4llm emptyCtx [] [] []
      = Except.error (PyError.jsonDecode ⟨"Expecting value".toList, "not json".toList⟩)
    ∧ ¬ ("not json".toList = c4raw) := ⟨rfl, by decide⟩

/-- Witness for C4: the propagation theorem applied at the concrete failing
model output. -/
theorem parse_failure_propagates_witness :
    generate_response c4llm emptyCtx [] [] []
      = Except.error (PyError.jsonDecode ⟨"Expecting value".toList, "not json".toList⟩)
    ∧ (⟨"Expecting value".toList, "not json".toList⟩ : JsonDecodeError).doc
        = cleanResult (c4llm emptyCtx (format_sources []) (format_sources [])
            (format_sources [])) :=
  parse_failure_propagates c4llm emptyCtx [] [] []
    ⟨"Expecting value".toList, "not json".toList⟩ rfl

/-! ## Claim C6: fence stripping on valid JSON -/

/-- A list is a prefix of itself extended by anything (boolean form). -/
theorem isPrefixOf_append_self (p t : List Char) : p.isPrefixOf (p ++ t) = true :=
  List.isPrefixOf_iff_prefix.mpr (List.prefix_append p t)

/-- The first occurrence of a pattern in a string it starts is at index 0. -/
theorem findSubstrIdx_self (p t : List Char) : findSubstrIdx p (p ++ t) = some 0 := by
  cases p with
  | nil => cases t <;> simp [findSubstrIdx]
  | cons a as =>
    have h := isPrefixOf_append_self (a :: as) t
    rw [List.cons_append] at h
    rw [List.cons_append]
    simp [findSubstrIdx, h]

/-- A boolean that is not true is false. -/
theorem bool_eq_false_of_not {b : Bool} (h : ¬ b = true) : b = false := by
  cases b with
  | false => rfl
  | true => exact absurd rfl h

/-- A boolean that is not false is true. -/
theorem bool_eq_true_of_not {b : Bool} (h : ¬ b = false) : b = true := by
  cases b with
  | true => rfl
  | false => exact absurd rfl h

/-- Extending the pattern cannot create an occurrence. -/
theorem findSubstrIdx_append_pat_none (p q s : List Char)
    (h : findSubstrIdx p s = none) : findSubstrIdx (p ++ q) s = none := by
  induction s with
  | nil =>
    cases p with
    | nil => simp [findSubstrIdx] at h
    | cons a as => simp [findSubstrIdx]
  | cons c r ih =>
    by_cases hp : p.isPrefixOf (c :: r) = true
    · simp [findSubstrIdx, hp] at h
    · have hp' : p.isPrefixOf (c :: r) = false := bool_eq_false_of_not hp
      have h2 : findSubstrIdx p r = none := by
        simpa [findSubstrIdx, hp'] using h
      have hpq : (p ++ q).isPrefixOf (c :: r) = false := by
        by_contra hc
        have hc' : (p ++ q).isPrefixOf (c :: r) = true := bool_eq_true_of_not hc
        have : p.isPrefixOf (c :: r) = true :=
          List.isPrefixOf_iff_prefix.mpr
            ((List.prefix_append p q).trans (List.isPrefixOf_iff_prefix.mp hc'))
        simp [this] at hp'
      simp [findSubstrIdx, hpq, ih h2]

/-- In a fence-free text extended by the closing delimiter, the first
occurrence of the closing delimiter starts at the end of the text minus its
trailing backticks (at most two of them). -/
theorem fenceClose_first_in_append (j : List Char)
    (h : findSubstrIdx fenceClose j = none) :
    ∃ k t, findSubstrIdx fenceClose (j ++ fenceClose) = some k
      ∧ k + t = j.length ∧ t ≤ 2 ∧ j.drop k = List.replicate t btick := by
  induction j with
  | nil => exact ⟨0, 0, by decide, rfl, by omega, rfl⟩
  | cons c j ih =>
    have hpf : fenceClose.isPrefixOf (c :: j) = false := by
      by_cases hp : fenceClose.isPrefixOf (c :: j) = true
      · simp [findSubstrIdx, hp] at h
      · exact bool_eq_false_of_not hp
    have hj : findSubstrIdx fenceClose j = none := by
      simpa [findSubstrIdx, hpf] using h
    by_cases hpc : fenceClose.isPrefixOf (c :: (j ++ fenceClose)) = true
    · match j with
      | [] =>
        have hc : c = btick := by
          simp [fenceClose, List.isPrefixOf] at hpc
          exact hpc.symm
        subst hc
        exact ⟨0, 1, by decide, by decide, by omega, by decide⟩
      | [c2] =>
        have hc : c = btick ∧ c2 = btick := by
          simp [fenceClose, List.isPrefixOf] at hpc
          exact ⟨hpc.1.symm, hpc.2.symm⟩
        obtain ⟨rfl, rfl⟩ := hc
        exact ⟨0, 2, by decide, by decide, by omega, by decide⟩
      | c2 :: c3 :: j3 =>
        exfalso
        simp [fenceClose, List.isPrefixOf] at hpc hpf
        exact hpf hpc.1 hpc.2.1 hpc.2.2
    · have hpc' : fenceClose.isPrefixOf (c :: (j ++ fenceClose)) = false :=
        bool_eq_false_of_not hpc
      obtain ⟨k, t, hfind, hlen, ht, hdrop⟩ := ih hj
      refine ⟨k + 1, t, ?_, ?_, ht, by simpa using hdrop⟩
      · rw [List.cons_append]
        simp [findSubstrIdx, hpc', hfind]
      · simp only [List.length_cons]
        omega

/-- The substitution pass leaves a text without the opening delimiter
unchanged, whatever the fuel. -/
theorem stripFenceAux_nofence (n : Nat) (s : List Char)
    (h : findSubstrIdx fenceOpen s = none) : stripFenceAux n s = s := by
  cases n with
  | zero => rfl
  | succ m => simp [stripFenceAux, h]

/-- Stripping is the identity on a text with no closing delimiter. -/
theorem stripJsonFence_nofence (s : List Char)
    (h : findSubstrIdx fenceClose s = none) : stripJsonFence s = s := by
  have ho : findSubstrIdx fenceOpen s = none :=
    findSubstrIdx_append_pat_none fenceClose ['j', 's', 'o', 'n'] s h
  exact stripFenceAux_nofence _ s ho

/-- The drop of the closing delimiter by its own length minus the trailing
backtick count is that many backticks. -/
theorem fenceClose_drop (t : Nat) (ht : t ≤ 2) :
    fenceClose.drop (3 - t) = List.replicate t btick := by
  interval_cases t <;> decide

/-- One substitution step, with the delimiter searches resolved. -/
theorem stripFenceAux_step (n : Nat) (s : List Char) (i k : Nat)
    (ho : findSubstrIdx fenceOpen s = some i)
    (hc : findSubstrIdx fenceClose (s.drop (i + 7)) = some k) :
    stripFenceAux (n + 1) s
      = s.take i ++ (s.drop (i + 7)).take k
        ++ stripFenceAux n ((s.drop (i + 7)).drop (k + 3)) := by
  simp [stripFenceAux, ho, hc]

/-- A fence-free text wrapped in the `json` fence strips back to itself. -/
theorem stripJsonFence_wrap (j : List Char)
    (h : findSubstrIdx fenceClose j = none) :
    stripJsonFence (fenceOpen ++ j ++ fenceClose) = j := by
  obtain ⟨k, t, hfind, hlen, ht, hdrop⟩ := fenceClose_first_in_append j h
  have hopen : findSubstrIdx fenceOpen (fenceOpen ++ (j ++ fenceClose)) = some 0 :=
    findSubstrIdx_self _ _
  have hdrop7 : (fenceOpen ++ (j ++ fenceClose)).drop (0 + 7) = j ++ fenceClose :=
    List.drop_left fenceOpen _
  have htail : findSubstrIdx fenceOpen (List.replicate t btick) = none := by
    interval_cases t <;> decide
  have hk3 : k + 3 = j.length + (3 - t) := by omega
  have hdrop3 : (j ++ fenceClose).drop (k + 3) = List.replicate t btick := by
    rw [hk3, List.drop_append, fenceClose_drop t ht]
  have htake : (j ++ fenceClose).take k = j.take k :=
    List.take_append_of_le_length (by omega)
  unfold stripJsonFence
  rw [List.append_assoc]
  rw [stripFenceAux_step _ _ 0 k hopen (by rw [hdrop7]; exact hfind)]
  rw [hdrop7, htake, hdrop3, stripFenceAux_nofence _ _ htail,
    List.take_zero, List.nil_append]
  rw [← hdrop]
  exact List.take_append_drop k j

/-- Claim C6 (amended): for a JSON text `j` free of the three-backtick fence
delimiter, cleaning `j` wrapped in a json code fence and decoding yields the
same structure as cleaning and decoding the bare `j`: the fencing is stripped
and is not semantically significant. -/
theorem fenced_json_decodes_like_bare (j : List Char) (v : Json)
    (hnf : findSubstrIdx fenceClose j = none)
    (hv : parseJson (cleanResult j) = Except.ok v) :
    parseJson (cleanResult (fenceOpen ++ j ++ fenceClose)) = Except.ok v := by
  have h1 : cleanResult (fenceOpen ++ j ++ fenceClose) = cleanResult j := by
    unfold cleanResult
    rw [stripJsonFence_wrap j hnf, stripJsonFence_nofence j hnf]
  rw [h1]
  exact hv

/-- Witness for C6: a concrete fenced JSON array decodes like the bare one. -/
theorem fenced_json_decodes_like_bare_witness :
    parseJson (cleanResult (fenceOpen ++ "[1]".toList ++ fenceClose))
      = Except.ok (Json.arr [Json.num ['1']]) :=
  fenced_json_decodes_like_bare "[1]".toList (Json.arr [Json.num ['1']]) (by decide) rfl

/-- A valid JSON text containing the fence delimiter inside a string. -/
def cexJ : List Char :=
  [lbrace, '"', 'a', '"', ':', ' ', '"', btick, btick, btick, '"', rbrace]

/-- The structure the bare `cexJ` decodes to. -/
def cexV : Json := Json.obj [(['a'], Json.str [btick, btick, btick])]

/-- Counterexample for C6 as stated: the valid JSON text `cexJ` — an object
whose string value holds three backticks — decodes bare, but its fenced form
cleans to a different text (the lazy fence match closes inside the string
literal) and decoding then fails with Extra data, not the same structure. -/
theorem fenced_json_counterexample :
    parseJson (cleanResult cexJ) = Except.ok cexV
    ∧ parseJson (cleanResult (fenceOpen ++ cexJ ++ fenceClose))
        = Except.error ⟨"Extra data".toList,
            cleanResult (fenceOpen ++ cexJ ++ fenceClose)⟩
    ∧ ¬ (parseJson (cleanResult (fenceOpen ++ cexJ ++ fenceClose)) = Except.ok cexV) := by
  refine ⟨rfl, rfl, ?_⟩
  intro hcontra
  have h2 : parseJson (cleanResult (fenceOpen ++ cexJ ++ fenceClose))
      = Except.error ⟨"Extra data".toList,
          cleanResult (fenceOpen ++ cexJ ++ fenceClose)⟩ := rfl
  rw [h2] at hcontra
  exact Except.noConfusion hcontra
